import Mathlib

/-!
# Verification of the offset-detection pipeline

Shallow embedding of the page-offset detection modules of the
ag-verification dashboard (`offset_detection/pdf_processor.py`,
`offset_detection/offset_calculator.py`, `offset_detection/ocr_detector.py`),
together with proofs about the claims of the specification.

Python `int` values are modelled as `Int` (or `Nat` where the source only
produces non-negative values), Python `float` arithmetic on ratios is
modelled exactly over `ℚ`, `None`-able values as `Option`, dictionaries
with a fixed key set as structures (a key the source sometimes omits
becomes an `Option` field), and `collections.Counter` as an
insertion-ordered association list.
-/

set_option autoImplicit false

namespace AgDash

/-! ## `pdf_processor.select_sample_pages`

`select_sample_pages(total_pages, num_samples=3, skip_first=5)` from
`pdf_processor.py`.  The Python expression
`int(usable_start + (usable_range * fraction))` with
`fraction = (i + 1) / (num_samples + 1)` truncates a non-negative float;
it is modelled by exact truncated (floor) division
`usable_start + usable_range * (i + 1) / (num_samples + 1)` on `Nat`,
which agrees with the float computation for the dyadic fractions of the
default `num_samples = 3` and all document sizes in range.
`list(range(a, b + 1))` is `List.range' a (b + 1 - a)`. -/

def select_sample_pages (total_pages : Nat) (num_samples : Nat := 3)
    (skip_first : Nat := 5) : List Nat :=
  if total_pages ≤ skip_first then
    -- Document too short, just sample middle page
    if total_pages > 0 then [total_pages / 2] else []
  else
    let usable_start := skip_first + 1
    let usable_end := total_pages
    let usable_range := usable_end - usable_start
    if usable_range < num_samples then
      -- Not enough pages, sample what we can
      List.range' usable_start (usable_end + 1 - usable_start)
    else
      (List.range num_samples).map
        (fun i => usable_start + usable_range * (i + 1) / (num_samples + 1))

/-! ## `ocr_detector.py`

The recogniser (`pytesseract`) is external: its outputs are the inputs of
the embedding.  A token of `image_to_data` carries its text, its `top`
coordinate and its recognition confidence; the regex pass over the
`image_to_string` text is external library code, so
`find_page_number_patterns` receives the list of captured group-1 strings
of all pattern matches, in match order.  An exception thrown anywhere in
the recogniser (the `try` body of `detect_labeled_page_number`) is
modelled by the whole OCR input being `none`.  String scanning
(`strip()`, `isdigit()`, `int(...)`) is modelled over the character
sequences (`String.data`) of the strings. -/

/-- One word of the `image_to_data` output (parallel arrays `text`,
`top`, `conf` read at a common index). -/
structure OcrToken where
  text : String
  top : Nat
  conf : Int
  deriving Repr, DecidableEq

/-- Everything `detect_labeled_page_number` reads from the recogniser. -/
structure OcrInput where
  match_groups : List String
  data : List OcrToken
  size : Nat × Nat
  deriving Repr, DecidableEq

/-- Python `str.strip()` on the character sequence of a string: drop
whitespace from both ends. -/
def pyStrip (cs : List Char) : List Char :=
  ((cs.dropWhile Char.isWhitespace).reverse.dropWhile Char.isWhitespace).reverse

/-- Python `int(s)` on a sequence of decimal digits. -/
def digitsToNat (cs : List Char) : Nat :=
  cs.foldl (fun n c => 10 * n + (c.toNat - 48)) 0

/-- Loop body of `find_positional_page_numbers`: handles one OCR word.
`word.strip()` is `pyStrip` on the word's characters; `isdigit()` on the
non-empty stripped word is `List.all Char.isDigit`; the float thresholds
`top <= height * 0.10` and `top >= height * 0.90` are the exact
comparisons `10 * top ≤ height` and `10 * top ≥ 9 * height`. -/
def positional_candidate (height : Nat) (w : OcrToken) : Option Nat :=
  let s := pyStrip w.text.data
  if s = [] then none
  else
    let in_footer := 10 * w.top ≥ 9 * height
    let in_header := 10 * w.top ≤ height
    if ¬ (in_footer ∨ in_header) then none
    else if s.all Char.isDigit then
      let page_num := digitsToNat s
      if 1 ≤ page_num ∧ page_num ≤ 9999 ∧ w.conf > 50 then some page_num
      else none
    else none

/-- `find_positional_page_numbers(ocr_data, image_size)`: scan the OCR
words in order, keeping numeric header/footer-zone candidates. -/
def find_positional_page_numbers (tokens : List OcrToken)
    (size : Nat × Nat) : List Nat :=
  tokens.filterMap (positional_candidate size.2)

/-- `find_page_number_patterns(text)`: each captured group is parsed with
`int(...)` (a `ValueError` on a non-numeric group skips it — unreachable
for the `\d+` groups of the source patterns) and kept when in `1..9999`. -/
def find_page_number_patterns (match_groups : List String) : List Nat :=
  match_groups.filterMap fun g =>
    if g.data ≠ [] ∧ g.data.all Char.isDigit then
      let page_num := digitsToNat g.data
      if 1 ≤ page_num ∧ page_num ≤ 9999 then some page_num else none
    else none

/-- `detect_labeled_page_number(image)`: positional candidates first, then
pattern candidates; the first of the concatenation is returned, `None`
when there is none or when the recogniser threw (`except` branch). -/
def detect_labeled_page_number (ocr : Option OcrInput) : Option Nat :=
  match ocr with
  | none => none
  | some o =>
    let pattern_matches := find_page_number_patterns o.match_groups
    let positional_matches := find_positional_page_numbers o.data o.size
    let all_candidates := positional_matches ++ pattern_matches
    all_candidates.head?

/-! ## `offset_calculator.py`

`calculate_offset_from_samples` returns a Python dict; its keys are the
fields of `OffsetResult`, with `Option` for the keys that only one of
the two branches sets (`samples_valid`, `agreement_ratio`,
`offset_distribution`, `warning`, `message`) and for the
`agrees_with_consensus` key of evidence entries, which the
no-valid-samples branch omits.  `collections.Counter` is an
insertion-ordered map and `most_common` sorts by count with a stable
sort, so ties keep first-encounter order; `pyCounter` models it as an
association list whose keys appear in first-occurrence order, and
`most_common1` models `most_common(1)[0]` as the first entry of maximal
count.  The float `agreement_ratio` and the literals `1.0` and `0.66`
are modelled exactly over `ℚ`. -/

/-- `OffsetSample(pdf_page, detected_label)`. -/
structure OffsetSample where
  pdf_page : Int
  detected_label : Option Int
  deriving Repr, DecidableEq

/-- The `offset` attribute set in `OffsetSample.__init__`:
`pdf_page - detected_label` when a label was detected, else `None`. -/
def OffsetSample.offset (s : OffsetSample) : Option Int :=
  s.detected_label.map (fun l => s.pdf_page - l)

/-- One entry of the `evidence` list of an offset result. -/
structure EvidenceEntry where
  pdf_page : Int
  detected_label : Option Int
  offset : Option Int
  agrees_with_consensus : Option Bool
  deriving Repr, DecidableEq

/-- The distinct values of `l` in first-occurrence order (the key order
of a Python dict/`Counter` built by counting `l` left to right). -/
def counterKeys : List Int → List Int
  | [] => []
  | x :: xs => x :: (counterKeys xs).filter (fun y => y ≠ x)

/-- `collections.Counter(l)` as an insertion-ordered association list. -/
def pyCounter (l : List Int) : List (Int × Nat) :=
  (counterKeys l).map (fun x => (x, l.count x))

/-- `counter.most_common(1)[0]`: `most_common` sorts entries by count
descending with a stable sort, so the first entry of maximal count wins.
Python raises `IndexError` on an empty counter; that case is unreachable
in `calculate_offset_from_samples` and mapped to `(0, 0)`. -/
def most_common1 : List (Int × Nat) → Int × Nat
  | [] => (0, 0)
  | p :: ps => ps.foldl (fun b q => if q.2 > b.2 then q else b) p

/-- The dict returned by `calculate_offset_from_samples`. -/
structure OffsetResult where
  offset : Option Int
  confidence : String
  samples_processed : Nat
  samples_agreed : Nat
  samples_valid : Option Nat
  agreement_ratio : Option ℚ
  all_offsets : List Int
  offset_distribution : Option (List (Int × Nat))
  evidence : List EvidenceEntry
  warning : Option String
  message : Option String
  deriving Repr, DecidableEq

/-- `calculate_offset_from_samples(samples)`. -/
def calculate_offset_from_samples (samples : List OffsetSample) : OffsetResult :=
  -- Filter out samples where detection failed
  let valid_samples := samples.filter (fun s => s.offset.isSome)
  if valid_samples = [] then
    { offset := none
      confidence := "NONE"
      samples_processed := samples.length
      samples_agreed := 0
      samples_valid := none
      agreement_ratio := none
      all_offsets := []
      offset_distribution := none
      evidence := samples.map (fun s =>
        { pdf_page := s.pdf_page, detected_label := s.detected_label,
          offset := s.offset, agrees_with_consensus := none })
      warning := none
      message := some "No labeled page numbers detected. Document may use PDF page numbers directly (offset = 0)." }
  else
    let offsets := valid_samples.filterMap OffsetSample.offset
    let offset_counts := pyCounter offsets
    let mc := most_common1 offset_counts
    let consensus_offset := mc.1
    let consensus_count := mc.2
    let total_valid := valid_samples.length
    let agreement_ratio : ℚ := (consensus_count : ℚ) / (total_valid : ℚ)
    let confidence :=
      if agreement_ratio = 1 then "HIGH"
      else if agreement_ratio ≥ 33 / 50 then "MEDIUM"
      else "LOW"
    { offset := some consensus_offset
      confidence := confidence
      samples_processed := samples.length
      samples_agreed := consensus_count
      samples_valid := some total_valid
      agreement_ratio := some agreement_ratio
      all_offsets := offsets
      offset_distribution := some offset_counts
      evidence := samples.map (fun s =>
        { pdf_page := s.pdf_page, detected_label := s.detected_label,
          offset := s.offset,
          agrees_with_consensus := some (decide (s.offset = some consensus_offset)) })
      warning :=
        if confidence = "LOW" then
          some ("Low confidence: Only " ++ toString consensus_count ++ "/" ++
            toString total_valid ++ " samples agree. Manual review recommended.")
        else if confidence = "MEDIUM" then
          some ("Medium confidence: " ++ toString consensus_count ++ "/" ++
            toString total_valid ++ " samples agree. Consider manual verification.")
        else none
      message := none }

/-- The agreement ratio as the specification words it: the number of
valid samples whose offset equals the consensus offset `c`, divided by
the number of valid samples.  Stated from the spec, to be compared with
the ratio the code computes. -/
def specAgreementRatio (samples : List OffsetSample) (c : Int) : ℚ :=
  (((samples.filter (fun s => s.offset.isSome)).filter
      (fun s => s.offset = some c)).length : ℚ)
    / ((samples.filter (fun s => s.offset.isSome)).length : ℚ)

/-- `validate_offset(offset, max_offset=50)`. -/
def validate_offset (offset : Option Int) (max_offset : Int := 50) :
    Bool × String :=
  match offset with
  | none => (false, "No offset detected")
  | some o =>
    if |o| > max_offset then
      (false, "Offset " ++ toString o ++ " exceeds maximum " ++
        toString max_offset ++ ". May be incorrect.")
    else if o < 0 then
      (true, "Negative offset (" ++ toString o ++
        "): PDF pages numbered lower than document pages")
    else if o = 0 then
      (true, "Zero offset: PDF and document pages match")
    else
      (true, "Positive offset (" ++ toString o ++
        "): PDF pages numbered higher than document pages")

/-- The dict built by `create_offset_mapping` (the `company` argument is
accepted by the source but not stored). -/
structure OffsetMapping where
  document_name : String
  offset : Option Int
  confidence : String
  samples_processed : Nat
  samples_agreed : Nat
  method : String
  evidence : List EvidenceEntry
  evidence_images : List String
  warning : Option String
  message : Option String
  offset_distribution : Option (List (Int × Nat))
  validation : Option (Bool × String)
  deriving Repr, DecidableEq

/-- `create_offset_mapping(company, document_name, offset_result,
evidence_images, method='ocr_auto')`.  The `validation` entry is only
set when `offset_result.get('offset') is not None`. -/
def create_offset_mapping (company document_name : String)
    (offset_result : OffsetResult) (evidence_images : List String)
    (method : String := "ocr_auto") : OffsetMapping :=
  { document_name := document_name
    offset := offset_result.offset
    confidence := offset_result.confidence
    samples_processed := offset_result.samples_processed
    samples_agreed := offset_result.samples_agreed
    method := method
    evidence := offset_result.evidence
    evidence_images := evidence_images
    warning := offset_result.warning
    message := offset_result.message
    offset_distribution := offset_result.offset_distribution
    validation := offset_result.offset.map (fun o => validate_offset (some o) 50) }

end AgDash

namespace AgDash

/-- **C8.** For every `total_pages ≤ skip_first`, `select_sample_pages`
returns at most one page: the empty list when `total_pages = 0`, and
otherwise the single-element list `[total_pages / 2]`. -/
theorem C8_short_document_single_midpoint
    (total_pages num_samples skip_first : Nat)
    (h : total_pages ≤ skip_first) :
    select_sample_pages total_pages num_samples skip_first =
      (if total_pages = 0 then [] else [total_pages / 2]) ∧
    (select_sample_pages total_pages num_samples skip_first).length ≤ 1 := by
  unfold select_sample_pages
  rw [if_pos h]
  rcases Nat.eq_zero_or_pos total_pages with h0 | h0
  · subst h0; simp
  · rw [if_pos h0, if_neg (Nat.pos_iff_ne_zero.mp h0)]
    exact ⟨rfl, by simp⟩

/-- Witness for C8 at `total_pages = 4, skip_first = 5`. -/
theorem C8_short_document_single_midpoint_witness :
    select_sample_pages 4 3 5 = (if (4 : Nat) = 0 then [] else [4 / 2]) ∧
    (select_sample_pages 4 3 5).length ≤ 1 :=
  C8_short_document_single_midpoint 4 3 5 (by decide)

/-- **C10.** For `total_pages = 1` and any `skip_first ≥ 1` (in particular
the default `skip_first = 5`), `select_sample_pages` returns `[0]`, and
`0` lies outside the valid 1-based physical page range `[1, 1]` of a
one-page document. -/
theorem C10_one_page_document_yields_page_zero
    (skip_first : Nat) (h : 1 ≤ skip_first) :
    select_sample_pages 1 3 skip_first = [0] ∧
    ∀ p ∈ select_sample_pages 1 3 skip_first, ¬ (1 ≤ p ∧ p ≤ 1) := by
  have e : select_sample_pages 1 3 skip_first = [0] := by
    unfold select_sample_pages
    rw [if_pos h]
    norm_num
  refine ⟨e, ?_⟩
  intro p hp
  rw [e] at hp
  simp at hp
  omega

/-- Witness for C10 at the default `skip_first = 5`. -/
theorem C10_one_page_document_yields_page_zero_witness :
    select_sample_pages 1 3 5 = [0] ∧
    ∀ p ∈ select_sample_pages 1 3 5, ¬ (1 ≤ p ∧ p ≤ 1) :=
  C10_one_page_document_yields_page_zero 5 (by decide)

/-- **C3, counterexample.** At `total_pages = 8, num_samples = 3,
skip_first = 5` the usable range `6..8` contains exactly 3 pages — not
*fewer* than `num_samples = 3` — so the claim prescribes the
evenly-spaced formula, whose value list is `[6, 7, 7]`; the code instead
takes the all-usable-pages branch and returns `[6, 7, 8]`. -/
theorem C3_counterexample_boundary_usable_count :
    ¬ (8 - (5 + 1) + 1 < 3) ∧
    (List.range 3).map (fun i => (5 + 1) + (8 - (5 + 1)) * (i + 1) / (3 + 1))
      = [6, 7, 7] ∧
    select_sample_pages 8 3 5 = [6, 7, 8] ∧
    select_sample_pages 8 3 5 ≠
      (List.range 3).map (fun i => (5 + 1) + (8 - (5 + 1)) * (i + 1) / (3 + 1)) := by
  refine ⟨by decide, by decide, ?_, ?_⟩
  · unfold select_sample_pages; decide
  · unfold select_sample_pages; decide

/-- **C3, amended.** For every `total_pages > skip_first`: when the usable
range `skip_first+1 .. total_pages` contains **at most** `num_samples`
pages (the code's test `usable_range < num_samples` on
`usable_range = total_pages - skip_first - 1`), `select_sample_pages`
returns every usable page in ascending order with no duplication;
otherwise it returns exactly `num_samples` pages, the `i`-th being the
truncated value of `usable_start + usable_range * (i+1) / (num_samples+1)`
in ascending fraction order; in particular
`select_sample_pages 100 3 5 = [29, 53, 76]`. -/
theorem C3_sample_page_selection
    (total_pages num_samples skip_first : Nat)
    (h : skip_first < total_pages) :
    (total_pages - skip_first ≤ num_samples →
      select_sample_pages total_pages num_samples skip_first =
        List.range' (skip_first + 1) (total_pages - skip_first)) ∧
    (num_samples < total_pages - skip_first →
      select_sample_pages total_pages num_samples skip_first =
        (List.range num_samples).map
          (fun i => (skip_first + 1) +
            (total_pages - (skip_first + 1)) * (i + 1) / (num_samples + 1))) ∧
    select_sample_pages 100 3 5 = [29, 53, 76] := by
  have hno : ¬ total_pages ≤ skip_first := Nat.not_le.mpr h
  refine ⟨?_, ?_, by unfold select_sample_pages; decide⟩
  · intro hle
    unfold select_sample_pages
    rw [if_neg hno]
    have hcond : total_pages - (skip_first + 1) < num_samples := by omega
    simp only [hcond, if_pos]
    have : total_pages + 1 - (skip_first + 1) = total_pages - skip_first := by omega
    rw [this]
  · intro hgt
    unfold select_sample_pages
    rw [if_neg hno]
    have hcond : ¬ (total_pages - (skip_first + 1) < num_samples) := by omega
    rw [if_neg hcond]

/-- Witness for C3 at `total_pages = 100, num_samples = 3, skip_first = 5`
(the spec's worked example) and at `total_pages = 8` for the short branch. -/
theorem C3_sample_page_selection_witness :
    (3 < 100 - 5 →
      select_sample_pages 100 3 5 =
        (List.range 3).map
          (fun i => (5 + 1) + (100 - (5 + 1)) * (i + 1) / (3 + 1))) ∧
    (8 - 5 ≤ 3 →
      select_sample_pages 8 3 5 = List.range' (5 + 1) (8 - 5)) :=
  ⟨(C3_sample_page_selection 100 3 5 (by decide)).2.1,
   (C3_sample_page_selection 8 3 5 (by decide)).1⟩

/-- `positional_candidate` succeeds exactly on non-empty purely numeric
stripped words in `1..9999` with confidence above 50 lying in the
header or footer zone. -/
theorem positional_candidate_eq_some (height : Nat) (w : OcrToken) (n : Nat) :
    positional_candidate height w = some n ↔
      (pyStrip w.text.data ≠ [] ∧ (pyStrip w.text.data).all Char.isDigit ∧
       digitsToNat (pyStrip w.text.data) = n ∧ 1 ≤ n ∧ n ≤ 9999 ∧ w.conf > 50 ∧
       (10 * w.top ≤ height ∨ 10 * w.top ≥ 9 * height)) := by
  simp only [positional_candidate]
  by_cases h1 : pyStrip w.text.data = []
  · rw [if_pos h1]
    simp [h1]
  · rw [if_neg h1]
    by_cases h2 : ¬ (10 * w.top ≥ 9 * height ∨ 10 * w.top ≤ height)
    · rw [if_pos h2]
      push_neg at h2
      obtain ⟨h2a, h2b⟩ := h2
      simp only [reduceCtorEq, false_iff]
      rintro ⟨-, -, -, -, -, -, hz | hz⟩
      · omega
      · omega
    · rw [if_neg h2]
      push_neg at h2
      by_cases h3 : (pyStrip w.text.data).all Char.isDigit
      · rw [if_pos h3]
        by_cases h4 : 1 ≤ digitsToNat (pyStrip w.text.data) ∧
            digitsToNat (pyStrip w.text.data) ≤ 9999 ∧ w.conf > 50
        · rw [if_pos h4]
          constructor
          · intro h
            injection h with h
            subst h
            exact ⟨h1, h3, rfl, h4.1, h4.2.1, h4.2.2, Or.symm h2⟩
          · rintro ⟨-, -, hn, -⟩
            rw [hn]
        · rw [if_neg h4]
          simp only [reduceCtorEq, false_iff]
          rintro ⟨-, -, hn, ha, hb, hc, -⟩
          exact h4 ⟨hn ▸ ha, hn ▸ hb, hc⟩
      · rw [if_neg h3]
        simp only [reduceCtorEq, false_iff]
        rintro ⟨-, hd, -⟩
        exact h3 hd

/-- **C7.** `detect_labeled_page_number` returns the head of the
positional candidates followed by the pattern candidates (positional
priority), is absent exactly when both strategies yield nothing, and a
positional candidate is exactly a purely numeric token in `[1, 9999]`
with confidence above 50 in the top-10% or bottom-10% zone. -/
theorem C7_detector_priority_and_positional_criteria
    (g : List String) (tokens : List OcrToken) (width height : Nat) :
    detect_labeled_page_number (some ⟨g, tokens, (width, height)⟩) =
      (find_positional_page_numbers tokens (width, height) ++
        find_page_number_patterns g).head? ∧
    (detect_labeled_page_number (some ⟨g, tokens, (width, height)⟩) = none ↔
      (find_positional_page_numbers tokens (width, height) = [] ∧
       find_page_number_patterns g = [])) ∧
    (∀ n : Nat, n ∈ find_positional_page_numbers tokens (width, height) ↔
      ∃ w ∈ tokens, pyStrip w.text.data ≠ [] ∧
        (pyStrip w.text.data).all Char.isDigit ∧
        digitsToNat (pyStrip w.text.data) = n ∧ 1 ≤ n ∧ n ≤ 9999 ∧
        w.conf > 50 ∧ (10 * w.top ≤ height ∨ 10 * w.top ≥ 9 * height)) := by
  refine ⟨rfl, ?_, ?_⟩
  · show (find_positional_page_numbers tokens (width, height) ++
        find_page_number_patterns g).head? = none ↔ _
    rw [List.head?_eq_none_iff, List.append_eq_nil]
  · intro n
    simp only [find_positional_page_numbers, List.mem_filterMap]
    constructor
    · rintro ⟨w, hw, hsome⟩
      exact ⟨w, hw, (positional_candidate_eq_some height w n).mp hsome⟩
    · rintro ⟨w, hw, hprops⟩
      exact ⟨w, hw, (positional_candidate_eq_some height w n).mpr hprops⟩

/-- **C9.** An exception thrown by the recogniser makes
`detect_labeled_page_number` return `None` (the `except` branch), and
this is the same outcome as when both strategies detect nothing. -/
theorem C9_recognizer_exception_returns_none :
    detect_labeled_page_number none = none ∧
    ∀ (g : List String) (tokens : List OcrToken) (wh : Nat × Nat),
      find_positional_page_numbers tokens wh = [] →
      find_page_number_patterns g = [] →
      detect_labeled_page_number (some ⟨g, tokens, wh⟩) =
        detect_labeled_page_number none := by
  refine ⟨rfl, ?_⟩
  intro g tokens wh h1 h2
  show (find_positional_page_numbers tokens wh ++
      find_page_number_patterns g).head? = none
  rw [h1, h2]
  rfl

/-- Witness for C9: an input whose two strategies both yield nothing
(a low-confidence footer token and a non-numeric pattern group). -/
theorem C9_recognizer_exception_returns_none_witness :
    detect_labeled_page_number none = none ∧
    detect_labeled_page_number
      (some ⟨["abc"], [⟨" 12 ", 95, 10⟩], (80, 100)⟩) =
      detect_labeled_page_number none :=
  ⟨C9_recognizer_exception_returns_none.1,
   C9_recognizer_exception_returns_none.2 ["abc"] [⟨" 12 ", 95, 10⟩]
     (80, 100) (by decide) (by decide)⟩

/-! ### Lemmas about the `Counter` model -/

theorem counterKeys_mem (l : List Int) (x : Int) :
    x ∈ counterKeys l ↔ x ∈ l := by
  induction l with
  | nil => simp [counterKeys]
  | cons y ys ih =>
    simp only [counterKeys, List.mem_cons]
    constructor
    · rintro (rfl | hmem)
      · exact Or.inl rfl
      · exact Or.inr (ih.mp (List.mem_filter.mp hmem).1)
    · rintro (rfl | hx)
      · exact Or.inl rfl
      · by_cases hxy : x = y
        · exact Or.inl hxy
        · exact Or.inr (List.mem_filter.mpr ⟨ih.mpr hx, by simpa using hxy⟩)

theorem counterKeys_nodup (l : List Int) : (counterKeys l).Nodup := by
  induction l with
  | nil => simp [counterKeys]
  | cons y ys ih =>
    refine List.Nodup.cons ?_ (ih.filter _)
    intro hmem
    have := (List.mem_filter.mp hmem).2
    simp at this

theorem counterKeys_pairwise (l : List Int) :
    (counterKeys l).Pairwise (fun a b => l.indexOf a < l.indexOf b) := by
  induction l with
  | nil => simp [counterKeys]
  | cons y ys ih =>
    simp only [counterKeys]
    rw [List.pairwise_cons]
    constructor
    · intro b hb
      have hbne : b ≠ y := by simpa using (List.mem_filter.mp hb).2
      rw [List.indexOf_cons_self, List.indexOf_cons_ne ys (fun h => hbne h.symm)]
      exact Nat.succ_pos _
    · refine List.Pairwise.imp_of_mem ?_ (ih.filter (fun z => z ≠ y))
      intro a b ha hb hr
      have ha' : a ≠ y := by simpa using (List.mem_filter.mp ha).2
      have hb' : b ≠ y := by simpa using (List.mem_filter.mp hb).2
      rw [List.indexOf_cons_ne ys (fun h => ha' h.symm),
        List.indexOf_cons_ne ys (fun h => hb' h.symm)]
      omega

theorem sum_counterKeys_count (l : List Int) :
    ((counterKeys l).map (fun x => l.count x)).sum = l.length := by
  induction l with
  | nil => rfl
  | cons y ys ih =>
    simp only [counterKeys, List.map_cons, List.sum_cons]
    have hmap : ((counterKeys ys).filter (fun z => z ≠ y)).map
          (fun x => (y :: ys).count x)
        = ((counterKeys ys).filter (fun z => z ≠ y)).map
          (fun x => ys.count x) := by
      apply List.map_congr_left
      intro x hx
      have hne : x ≠ y := by simpa using (List.mem_filter.mp hx).2
      rw [List.count_cons_of_ne hne]
    rw [List.count_cons_self, hmap]
    by_cases hy : y ∈ ys
    · have hyk : y ∈ counterKeys ys := (counterKeys_mem ys y).mpr hy
      have hperm : List.Perm (counterKeys ys) (y :: (counterKeys ys).erase y) :=
        List.perm_cons_erase hyk
      have herase : (counterKeys ys).erase y
          = (counterKeys ys).filter (fun z => z ≠ y) := by
        rw [(counterKeys_nodup ys).erase_eq_filter y]
        apply List.filter_congr
        intro z _
        by_cases hz : z = y <;> simp [hz]
      have hsum := (hperm.map (fun x => ys.count x)).sum_eq
      rw [ih, herase] at hsum
      simp only [List.map_cons, List.sum_cons] at hsum
      have hcle : ys.count y ≤ ys.length := List.count_le_length y ys
      simp only [List.length_cons]
      omega
    · have hfe : (counterKeys ys).filter (fun z => z ≠ y) = counterKeys ys := by
        apply List.filter_eq_self.mpr
        intro x hx
        have hxy : x ∈ ys := (counterKeys_mem ys x).mp hx
        have : x ≠ y := fun h => hy (h ▸ hxy)
        simpa using this
      rw [hfe, ih, List.count_eq_zero.mpr hy]
      simp only [List.length_cons]
      omega

theorem lookup_map_key (f : Int → Nat) :
    ∀ (ks : List Int) (x : Int), x ∈ ks →
      (ks.map (fun k => (k, f k))).lookup x = some (f x) := by
  intro ks
  induction ks with
  | nil => intro x hx; exact absurd hx (List.not_mem_nil x)
  | cons y ys ih =>
    intro x hx
    by_cases hxy : x = y
    · subst hxy
      simp [List.lookup]
    · have hmem : x ∈ ys := by
        rcases List.mem_cons.mp hx with rfl | h
        · exact absurd rfl hxy
        · exact h
      have hbeq : (x == y) = false := beq_eq_false_iff_ne.mpr hxy
      simp only [List.map_cons, List.lookup, hbeq]
      exact ih x hmem

theorem map_eq_append_cons_split {α β : Type} (f : α → β) :
    ∀ (ks : List α) (l1 : List β) (y : β) (l2 : List β),
      ks.map f = l1 ++ y :: l2 →
      ∃ K1 k K2, ks = K1 ++ k :: K2 ∧ K1.map f = l1 ∧ f k = y ∧ K2.map f = l2 := by
  intro ks
  induction ks with
  | nil =>
    intro l1 y l2 h
    exact absurd h.symm (List.append_ne_nil_of_right_ne_nil l1 (List.cons_ne_nil y l2))
  | cons x ks ih =>
    intro l1 y l2 h
    cases l1 with
    | nil =>
      simp only [List.map_cons, List.nil_append] at h
      obtain ⟨hy, hrest⟩ := List.cons.inj h
      exact ⟨[], x, ks, rfl, rfl, hy, hrest⟩
    | cons z l1 =>
      simp only [List.map_cons, List.cons_append] at h
      obtain ⟨hz, hrest⟩ := List.cons.inj h
      obtain ⟨K1, k, K2, hks, hK1, hk, hK2⟩ := ih l1 y l2 hrest
      exact ⟨x :: K1, k, K2, by rw [hks]; rfl, by rw [List.map_cons, hK1, hz],
        hk, hK2⟩

/-- The `foldl` of `most_common1` returns the first entry of maximal
count: the scanned list splits around the result, everything strictly
before it having a strictly smaller count. -/
theorem foldl_max_split :
    ∀ (ps : List (Int × Nat)) (b : Int × Nat),
      ∃ l1 l2 : List (Int × Nat),
        b :: ps = l1 ++ (ps.foldl (fun b q => if q.2 > b.2 then q else b) b) :: l2 ∧
        (∀ q ∈ l1, q.2 < (ps.foldl (fun b q => if q.2 > b.2 then q else b) b).2) ∧
        (∀ q ∈ b :: ps, q.2 ≤ (ps.foldl (fun b q => if q.2 > b.2 then q else b) b).2) := by
  intro ps
  induction ps with
  | nil =>
    intro b
    exact ⟨[], [], rfl, by simp, by simp⟩
  | cons q ps ih =>
    intro b
    by_cases hq : q.2 > b.2
    · have hstep : ((q :: ps).foldl (fun b q => if q.2 > b.2 then q else b) b)
          = ps.foldl (fun b q => if q.2 > b.2 then q else b) q := by
        simp [List.foldl_cons, if_pos hq]
      obtain ⟨l1, l2, hsplit, hl1, hmax⟩ := ih q
      rw [hstep]
      refine ⟨b :: l1, l2, ?_, ?_, ?_⟩
      · show b :: q :: ps = b :: (l1 ++ _ :: l2)
        rw [← hsplit]
      · intro p hp
        rcases List.mem_cons.mp hp with rfl | hp
        · exact lt_of_lt_of_le hq (hmax q (List.mem_cons_self q ps))
        · exact hl1 p hp
      · intro p hp
        rcases List.mem_cons.mp hp with rfl | hp
        · exact le_of_lt (lt_of_lt_of_le hq (hmax q (List.mem_cons_self q ps)))
        · exact hmax p hp
    · have hstep : ((q :: ps).foldl (fun b q => if q.2 > b.2 then q else b) b)
          = ps.foldl (fun b q => if q.2 > b.2 then q else b) b := by
        simp [List.foldl_cons, if_neg hq]
      obtain ⟨l1, l2, hsplit, hl1, hmax⟩ := ih b
      rw [hstep]
      cases l1 with
      | nil =>
        simp only [List.nil_append] at hsplit
        obtain ⟨hb, hl⟩ := List.cons.inj hsplit
        refine ⟨[], q :: l2, ?_, by simp, ?_⟩
        · show b :: q :: ps = _ :: q :: l2
          rw [← hb, ← hl]
        · intro p hp
          rcases List.mem_cons.mp hp with rfl | hp
          · exact hmax p (List.mem_cons_self p ps)
          · rcases List.mem_cons.mp hp with rfl | hp
            · rw [← hb]; omega
            · exact hmax p (List.mem_cons_of_mem b hp)
      | cons b' l1 =>
        simp only [List.cons_append] at hsplit
        obtain ⟨hb, hl⟩ := List.cons.inj hsplit
        refine ⟨b :: q :: l1, l2, ?_, ?_, ?_⟩
        · exact congrArg (fun t => b :: q :: t) hl
        · intro p hp
          rcases List.mem_cons.mp hp with rfl | hp
          · have := hl1 b' (List.mem_cons_self b' l1)
            rw [← hb] at this
            exact this
          · rcases List.mem_cons.mp hp with rfl | hp
            · have hb'lt := hl1 b' (List.mem_cons_self b' l1)
              rw [← hb] at hb'lt
              omega
            · exact hl1 p (List.mem_cons_of_mem b' hp)
        · intro p hp
          rcases List.mem_cons.mp hp with rfl | hp
          · exact hmax p (List.mem_cons_self p ps)
          · rcases List.mem_cons.mp hp with rfl | hp
            · have := hmax b (List.mem_cons_self b ps)
              omega
            · exact hmax p (List.mem_cons_of_mem b hp)

theorem pyCounter_mem {l : List Int} {q : Int × Nat} (h : q ∈ pyCounter l) :
    q.1 ∈ l ∧ q.2 = l.count q.1 := by
  obtain ⟨x, hx, rfl⟩ := List.mem_map.mp h
  exact ⟨(counterKeys_mem l x).mp hx, rfl⟩

theorem pyCounter_mem_of {l : List Int} {x : Int} (h : x ∈ l) :
    (x, l.count x) ∈ pyCounter l :=
  List.mem_map.mpr ⟨x, (counterKeys_mem l x).mpr h, rfl⟩

/-- `most_common(1)[0]` on a non-empty counter returns an element of the
counted list together with its count; the count is maximal, and on ties
the returned element is the one occurring first in the counted list. -/
theorem most_common1_pyCounter (l : List Int) (hl : l ≠ []) :
    (most_common1 (pyCounter l)).1 ∈ l ∧
    (most_common1 (pyCounter l)).2 = l.count (most_common1 (pyCounter l)).1 ∧
    (∀ o ∈ l, l.count o ≤ (most_common1 (pyCounter l)).2) ∧
    (∀ o ∈ l, l.count o = (most_common1 (pyCounter l)).2 →
      l.indexOf (most_common1 (pyCounter l)).1 ≤ l.indexOf o) := by
  obtain ⟨p, ps, hpc⟩ : ∃ p ps, pyCounter l = p :: ps := by
    cases l with
    | nil => exact absurd rfl hl
    | cons y ys => exact ⟨_, _, rfl⟩
  set mc := most_common1 (pyCounter l) with hmc
  have hfold : mc = ps.foldl (fun b q => if q.2 > b.2 then q else b) p := by
    rw [hmc, hpc, most_common1]
  obtain ⟨l1, l2, hsplit, hl1, hmax⟩ := foldl_max_split ps p
  rw [← hfold] at hsplit hl1 hmax
  have hmem : mc ∈ pyCounter l := by
    rw [hpc, hsplit]
    exact List.mem_append_right l1 (List.mem_cons_self mc l2)
  obtain ⟨hmem1, hcount⟩ := pyCounter_mem hmem
  refine ⟨hmem1, hcount, ?_, ?_⟩
  · intro o ho
    have hoc := pyCounter_mem_of ho
    rw [hpc] at hoc
    exact hmax _ hoc
  · intro o ho htie
    by_cases heq : o = mc.1
    · rw [heq]
    · have hqmem : (o, l.count o) ∈ pyCounter l := pyCounter_mem_of ho
      rw [hpc, hsplit] at hqmem
      rcases List.mem_append.mp hqmem with hin1 | hin2
      · have := hl1 _ hin1
        omega
      · rcases List.mem_cons.mp hin2 with heq2 | hin2
        · exact absurd (congrArg Prod.fst heq2) heq
        · have hmapsplit : (counterKeys l).map (fun x => (x, l.count x))
              = l1 ++ mc :: l2 := by
            rw [← hsplit, ← hpc]
            rfl
          obtain ⟨K1, kc, K2, hks, hK1, hkc, hK2⟩ :=
            map_eq_append_cons_split (fun x => (x, l.count x))
              (counterKeys l) l1 mc l2 hmapsplit
          have hkc1 : kc = mc.1 := congrArg Prod.fst hkc
          rw [← hK2] at hin2
          obtain ⟨ko, hko2, hkoeq⟩ := List.mem_map.mp hin2
          have hko1 : ko = o := congrArg Prod.fst hkoeq
          have hpw := counterKeys_pairwise l
          rw [hks] at hpw
          have hrel := (List.pairwise_cons.mp (List.pairwise_append.mp hpw).2.1).1
            ko hko2
          rw [hkc1, hko1] at hrel
          exact le_of_lt hrel

/-- `filterMap` by the offset over samples that all carry an offset
keeps the length. -/
theorem filterMap_offset_length :
    ∀ (l : List OffsetSample), (∀ s ∈ l, s.offset.isSome) →
      (l.filterMap OffsetSample.offset).length = l.length := by
  intro l
  induction l with
  | nil => intro _; rfl
  | cons s t ih =>
    intro h
    obtain ⟨v, hv⟩ := Option.isSome_iff_exists.mp (h s (List.mem_cons_self s t))
    simp only [List.filterMap_cons, hv, List.length_cons]
    rw [ih (fun x hx => h x (List.mem_cons_of_mem s hx))]

/-- Counting an offset value among the extracted offsets equals counting
the samples carrying that offset, when every sample carries one. -/
theorem filterMap_offset_count (c : Int) :
    ∀ (l : List OffsetSample), (∀ s ∈ l, s.offset.isSome) →
      (l.filterMap OffsetSample.offset).count c
        = (l.filter (fun s => s.offset = some c)).length := by
  intro l
  induction l with
  | nil => intro _; rfl
  | cons s t ih =>
    intro h
    obtain ⟨v, hv⟩ := Option.isSome_iff_exists.mp (h s (List.mem_cons_self s t))
    have ht := ih (fun x hx => h x (List.mem_cons_of_mem s hx))
    simp only [List.filterMap_cons, hv, List.filter_cons, hv]
    by_cases hvc : v = c
    · subst hvc
      simp [List.count_cons, ht]
    · have hne : ¬ (some v = some c) := fun hsv => hvc (Option.some.inj hsv)
      simp [List.count_cons, hvc, hne, ht]

/-- **C2.** For a sample sequence with at least one valid sample, the
consensus offset is the mode of the valid samples' offsets, ties being
broken in favour of the value occurring first in the valid-sample
sequence (the order in which `Counter` first encounters each distinct
value). -/
theorem C2_consensus_mode_first_encounter
    (samples : List OffsetSample) (offsets : List Int)
    (hoff : offsets = (samples.filter (fun s => s.offset.isSome)).filterMap
      OffsetSample.offset)
    (hne : offsets ≠ []) :
    ∃ c : Int,
      (calculate_offset_from_samples samples).offset = some c ∧
      c ∈ offsets ∧
      (∀ o ∈ offsets, offsets.count o ≤ offsets.count c) ∧
      (∀ o ∈ offsets, offsets.count o = offsets.count c →
        offsets.indexOf c ≤ offsets.indexOf o) := by
  have hvalid : samples.filter (fun s => s.offset.isSome) ≠ [] := by
    intro h
    rw [h] at hoff
    exact hne (by simpa using hoff)
  obtain ⟨hm, hc, hmax, htie⟩ := most_common1_pyCounter offsets hne
  refine ⟨(most_common1 (pyCounter offsets)).1, ?_, hm, ?_, ?_⟩
  · simp only [calculate_offset_from_samples]
    rw [if_neg hvalid, ← hoff]
  · intro o ho
    have h := hmax o ho
    rw [hc] at h
    exact h
  · intro o ho h2
    exact htie o ho (by rw [hc]; exact h2)

/-- Witness for C2 at the spec's worked example
`[(10,8),(20,17),(30,27)]` with offsets `[2,3,3]`. -/
theorem C2_consensus_mode_first_encounter_witness :
    ∃ c : Int,
      (calculate_offset_from_samples
        [⟨10, some 8⟩, ⟨20, some 17⟩, ⟨30, some 27⟩]).offset = some c ∧
      c ∈ ([2, 3, 3] : List Int) ∧
      (∀ o ∈ ([2, 3, 3] : List Int),
        ([2, 3, 3] : List Int).count o ≤ ([2, 3, 3] : List Int).count c) ∧
      (∀ o ∈ ([2, 3, 3] : List Int),
        ([2, 3, 3] : List Int).count o = ([2, 3, 3] : List Int).count c →
        ([2, 3, 3] : List Int).indexOf c ≤ ([2, 3, 3] : List Int).indexOf o) :=
  C2_consensus_mode_first_encounter
    [⟨10, some 8⟩, ⟨20, some 17⟩, ⟨30, some 27⟩] [2, 3, 3]
    (by decide) (by decide)

/-- **C1.** Confidence is `NONE` exactly when there is no valid sample;
and when a consensus offset `c` exists, with `specAgreementRatio` the
ratio of valid samples agreeing with `c` over all valid samples,
confidence is `HIGH` iff the ratio is `1`, `MEDIUM` iff it is at least
`0.66` and below `1`, and `LOW` iff it is below `0.66`. -/
theorem C1_confidence_tiering (samples : List OffsetSample) :
    ((calculate_offset_from_samples samples).confidence = "NONE" ↔
      (samples.filter (fun s => s.offset.isSome)).length = 0) ∧
    (∀ c : Int, (calculate_offset_from_samples samples).offset = some c →
      (((calculate_offset_from_samples samples).confidence = "HIGH" ↔
          specAgreementRatio samples c = 1) ∧
       ((calculate_offset_from_samples samples).confidence = "MEDIUM" ↔
          ((33 : ℚ) / 50 ≤ specAgreementRatio samples c ∧
            specAgreementRatio samples c < 1)) ∧
       ((calculate_offset_from_samples samples).confidence = "LOW" ↔
          specAgreementRatio samples c < (33 : ℚ) / 50))) := by
  by_cases hv : samples.filter (fun s => s.offset.isSome) = []
  · refine ⟨?_, ?_⟩
    · simp only [calculate_offset_from_samples]
      rw [if_pos hv]
      simp [hv]
    · intro c hc
      simp only [calculate_offset_from_samples] at hc
      rw [if_pos hv] at hc
      exact absurd hc (by simp)
  · have hall : ∀ s ∈ samples.filter (fun s => s.offset.isSome),
        s.offset.isSome := fun s hs => (List.mem_filter.mp hs).2
    have hlen : ((samples.filter (fun s => s.offset.isSome)).filterMap
          OffsetSample.offset).length
        = (samples.filter (fun s => s.offset.isSome)).length :=
      filterMap_offset_length _ hall
    have hvpos : 0 < (samples.filter (fun s => s.offset.isSome)).length :=
      List.length_pos.mpr hv
    have hone : (samples.filter (fun s => s.offset.isSome)).filterMap
        OffsetSample.offset ≠ [] := by
      intro h
      rw [h] at hlen
      simp only [List.length_nil] at hlen
      omega
    obtain ⟨hm, hcnt, hmax, htie⟩ := most_common1_pyCounter _ hone
    have hoffeq : (calculate_offset_from_samples samples).offset
        = some (most_common1 (pyCounter ((samples.filter
            (fun s => s.offset.isSome)).filterMap OffsetSample.offset))).1 := by
      simp only [calculate_offset_from_samples]
      rw [if_neg hv]
    have hconfeq : (calculate_offset_from_samples samples).confidence
        = (if ((most_common1 (pyCounter ((samples.filter
                (fun s => s.offset.isSome)).filterMap OffsetSample.offset))).2 : ℚ)
              / (((samples.filter (fun s => s.offset.isSome)).length : ℚ)) = 1
           then "HIGH"
           else if ((most_common1 (pyCounter ((samples.filter
                (fun s => s.offset.isSome)).filterMap OffsetSample.offset))).2 : ℚ)
              / (((samples.filter (fun s => s.offset.isSome)).length : ℚ)) ≥ 33 / 50
           then "MEDIUM" else "LOW") := by
      simp only [calculate_offset_from_samples]
      rw [if_neg hv]
    refine ⟨?_, ?_⟩
    · rw [hconfeq]
      constructor
      · intro habs
        split_ifs at habs <;> exact absurd habs (by decide)
      · intro hlen0
        exact absurd hlen0 (by omega)
    · intro c hc
      rw [hoffeq] at hc
      have hceq : c = (most_common1 (pyCounter ((samples.filter
          (fun s => s.offset.isSome)).filterMap OffsetSample.offset))).1 :=
        (Option.some.inj hc).symm
      subst hceq
      have ha : ((samples.filter (fun s => s.offset.isSome)).filter
            (fun s => s.offset = some (most_common1 (pyCounter ((samples.filter
              (fun s => s.offset.isSome)).filterMap OffsetSample.offset))).1)).length
          = (most_common1 (pyCounter ((samples.filter
              (fun s => s.offset.isSome)).filterMap OffsetSample.offset))).2 := by
        rw [hcnt]
        exact (filterMap_offset_count _ _ hall).symm
      simp only [specAgreementRatio]
      rw [ha, hconfeq]
      have hcle : (most_common1 (pyCounter ((samples.filter
            (fun s => s.offset.isSome)).filterMap OffsetSample.offset))).2
          ≤ (samples.filter (fun s => s.offset.isSome)).length := by
        rw [hcnt, ← hlen]
        exact List.count_le_length _ _
      set r : ℚ := ((most_common1 (pyCounter ((samples.filter
            (fun s => s.offset.isSome)).filterMap OffsetSample.offset))).2 : ℚ)
            / (((samples.filter (fun s => s.offset.isSome)).length : ℚ)) with hrdef
      have hratle : r ≤ 1 := by
        rw [hrdef, div_le_one (by exact_mod_cast hvpos)]
        exact_mod_cast hcle
      by_cases h1 : r = 1
      · rw [if_pos h1]
        refine ⟨⟨fun _ => h1, fun _ => rfl⟩, ?_, ?_⟩
        · constructor
          · intro habs
            exact absurd habs (by decide)
          · rintro ⟨-, hlt⟩
            rw [h1] at hlt
            exact absurd hlt (lt_irrefl _)
        · constructor
          · intro habs
            exact absurd habs (by decide)
          · intro hlt
            rw [h1] at hlt
            norm_num at hlt
      · rw [if_neg h1]
        by_cases h2 : r ≥ 33 / 50
        · rw [if_pos h2]
          exact ⟨⟨fun habs => absurd habs (by decide), fun hr => absurd hr h1⟩,
            ⟨fun _ => ⟨h2, lt_of_le_of_ne hratle h1⟩, fun _ => rfl⟩,
            ⟨fun habs => absurd habs (by decide),
             fun hlt => absurd hlt (not_lt.mpr h2)⟩⟩
        · rw [if_neg h2]
          have hlt : r < 33 / 50 := not_le.mp h2
          refine ⟨⟨fun habs => absurd habs (by decide), ?_⟩,
            ⟨fun habs => absurd habs (by decide),
             fun hconj => absurd hconj.1 h2⟩,
            ⟨fun _ => hlt, fun _ => rfl⟩⟩
          intro hr
          rw [hr] at hlt
          norm_num at hlt

/-- Witness for C1 at the spec's worked example, whose consensus offset
is `3` with ratio `2/3` (confidence `MEDIUM`). -/
theorem C1_confidence_tiering_witness :
    ((calculate_offset_from_samples
        [⟨10, some 8⟩, ⟨20, some 17⟩, ⟨30, some 27⟩]).confidence = "NONE" ↔
      (([⟨10, some 8⟩, ⟨20, some 17⟩, ⟨30, some 27⟩] : List OffsetSample).filter
          (fun s => s.offset.isSome)).length = 0) ∧
    (((calculate_offset_from_samples
          [⟨10, some 8⟩, ⟨20, some 17⟩, ⟨30, some 27⟩]).confidence = "HIGH" ↔
        specAgreementRatio [⟨10, some 8⟩, ⟨20, some 17⟩, ⟨30, some 27⟩] 3 = 1) ∧
     ((calculate_offset_from_samples
          [⟨10, some 8⟩, ⟨20, some 17⟩, ⟨30, some 27⟩]).confidence = "MEDIUM" ↔
        ((33 : ℚ) / 50 ≤ specAgreementRatio
            [⟨10, some 8⟩, ⟨20, some 17⟩, ⟨30, some 27⟩] 3 ∧
          specAgreementRatio [⟨10, some 8⟩, ⟨20, some 17⟩, ⟨30, some 27⟩] 3 < 1)) ∧
     ((calculate_offset_from_samples
          [⟨10, some 8⟩, ⟨20, some 17⟩, ⟨30, some 27⟩]).confidence = "LOW" ↔
        specAgreementRatio [⟨10, some 8⟩, ⟨20, some 17⟩, ⟨30, some 27⟩] 3
          < (33 : ℚ) / 50)) :=
  ⟨(C1_confidence_tiering [⟨10, some 8⟩, ⟨20, some 17⟩, ⟨30, some 27⟩]).1,
   (C1_confidence_tiering [⟨10, some 8⟩, ⟨20, some 17⟩, ⟨30, some 27⟩]).2
     3 (by decide)⟩

/-- **C5.** The values of `offset_distribution` (absent distribution read
as empty) sum to the number of valid samples; `samples_valid`, when set,
is that same number; and when a consensus offset exists,
`samples_agreed` is the distribution's entry at that offset. -/
theorem C5_distribution_invariant (samples : List OffsetSample) :
    ((((calculate_offset_from_samples samples).offset_distribution.getD []).map
        Prod.snd).sum = (samples.filter (fun s => s.offset.isSome)).length) ∧
    (∀ v : Nat, (calculate_offset_from_samples samples).samples_valid = some v →
      v = (samples.filter (fun s => s.offset.isSome)).length) ∧
    (∀ c : Int, (calculate_offset_from_samples samples).offset = some c →
      ((calculate_offset_from_samples samples).offset_distribution.getD []).lookup c
        = some ((calculate_offset_from_samples samples).samples_agreed)) := by
  by_cases hv : samples.filter (fun s => s.offset.isSome) = []
  · refine ⟨?_, ?_, ?_⟩
    · simp only [calculate_offset_from_samples]
      rw [if_pos hv]
      simp [hv]
    · intro v hsv
      simp only [calculate_offset_from_samples] at hsv
      rw [if_pos hv] at hsv
      exact absurd hsv (by simp)
    · intro c hc
      simp only [calculate_offset_from_samples] at hc
      rw [if_pos hv] at hc
      exact absurd hc (by simp)
  · have hall : ∀ s ∈ samples.filter (fun s => s.offset.isSome),
        s.offset.isSome := fun s hs => (List.mem_filter.mp hs).2
    have hlen : ((samples.filter (fun s => s.offset.isSome)).filterMap
          OffsetSample.offset).length
        = (samples.filter (fun s => s.offset.isSome)).length :=
      filterMap_offset_length _ hall
    have hone : (samples.filter (fun s => s.offset.isSome)).filterMap
        OffsetSample.offset ≠ [] := by
      intro h
      rw [h] at hlen
      simp only [List.length_nil] at hlen
      exact hv (List.length_eq_zero.mp hlen.symm)
    obtain ⟨hm, hcnt, hmax, htie⟩ := most_common1_pyCounter _ hone
    have hdist : (calculate_offset_from_samples samples).offset_distribution
        = some (pyCounter ((samples.filter
            (fun s => s.offset.isSome)).filterMap OffsetSample.offset)) := by
      simp only [calculate_offset_from_samples]
      rw [if_neg hv]
    have hoffeq : (calculate_offset_from_samples samples).offset
        = some (most_common1 (pyCounter ((samples.filter
            (fun s => s.offset.isSome)).filterMap OffsetSample.offset))).1 := by
      simp only [calculate_offset_from_samples]
      rw [if_neg hv]
    have hagreed : (calculate_offset_from_samples samples).samples_agreed
        = (most_common1 (pyCounter ((samples.filter
            (fun s => s.offset.isSome)).filterMap OffsetSample.offset))).2 := by
      simp only [calculate_offset_from_samples]
      rw [if_neg hv]
    refine ⟨?_, ?_, ?_⟩
    · rw [hdist]
      simp only [Option.getD_some, pyCounter, List.map_map]
      have hsum := sum_counterKeys_count ((samples.filter
          (fun s => s.offset.isSome)).filterMap OffsetSample.offset)
      rw [← hlen]
      exact hsum
    · intro v hsv
      have hval : (calculate_offset_from_samples samples).samples_valid
          = some (samples.filter (fun s => s.offset.isSome)).length := by
        simp only [calculate_offset_from_samples]
        rw [if_neg hv]
      rw [hval] at hsv
      exact (Option.some.inj hsv).symm
    · intro c hc
      rw [hoffeq] at hc
      have hceq : c = (most_common1 (pyCounter ((samples.filter
          (fun s => s.offset.isSome)).filterMap OffsetSample.offset))).1 :=
        (Option.some.inj hc).symm
      subst hceq
      rw [hdist, hagreed]
      simp only [Option.getD_some]
      have hmemk : (most_common1 (pyCounter ((samples.filter
            (fun s => s.offset.isSome)).filterMap OffsetSample.offset))).1
          ∈ counterKeys ((samples.filter
            (fun s => s.offset.isSome)).filterMap OffsetSample.offset) :=
        (counterKeys_mem _ _).mpr hm
      have hlook := lookup_map_key
        (fun x => ((samples.filter (fun s => s.offset.isSome)).filterMap
          OffsetSample.offset).count x)
        (counterKeys ((samples.filter (fun s => s.offset.isSome)).filterMap
          OffsetSample.offset))
        _ hmemk
      rw [hcnt]
      exact hlook

/-- Witness for C5 at the spec's worked example (3 valid samples,
consensus offset 3 agreed by 2). -/
theorem C5_distribution_invariant_witness :
    ((((calculate_offset_from_samples
        [⟨10, some 8⟩, ⟨20, some 17⟩, ⟨30, some 27⟩]).offset_distribution.getD
          []).map Prod.snd).sum
      = (([⟨10, some 8⟩, ⟨20, some 17⟩, ⟨30, some 27⟩] : List OffsetSample).filter
          (fun s => s.offset.isSome)).length) ∧
    ((3 : Nat) = (([⟨10, some 8⟩, ⟨20, some 17⟩, ⟨30, some 27⟩] :
          List OffsetSample).filter (fun s => s.offset.isSome)).length) ∧
    (((calculate_offset_from_samples
        [⟨10, some 8⟩, ⟨20, some 17⟩, ⟨30, some 27⟩]).offset_distribution.getD
          []).lookup 3
      = some ((calculate_offset_from_samples
          [⟨10, some 8⟩, ⟨20, some 17⟩, ⟨30, some 27⟩]).samples_agreed)) :=
  ⟨(C5_distribution_invariant
      [⟨10, some 8⟩, ⟨20, some 17⟩, ⟨30, some 27⟩]).1,
   (C5_distribution_invariant
      [⟨10, some 8⟩, ⟨20, some 17⟩, ⟨30, some 27⟩]).2.1 3 (by decide),
   (C5_distribution_invariant
      [⟨10, some 8⟩, ⟨20, some 17⟩, ⟨30, some 27⟩]).2.2 3 (by decide)⟩

/-- **C6, counterexample.** With no valid sample, the evidence entries
carry no `agrees_with_consensus` key at all — the annotation is absent,
not `false`. -/
theorem C6_counterexample_no_annotation_without_valid_sample :
    (calculate_offset_from_samples [⟨1, none⟩]).evidence
      = [⟨1, none, none, none⟩] ∧
    (⟨1, none, none, none⟩ : EvidenceEntry).agrees_with_consensus = none := by
  exact ⟨rfl, rfl⟩

/-- **C6, amended.** The evidence list always has length
`samples_processed = len(samples)` and lists every original sample in
original order; when at least one sample is valid, every entry is
annotated with whether its offset equals the consensus offset (so the
annotation is never `true` on an invalid sample), and when no sample is
valid the annotation is omitted from every entry. -/
theorem C6_evidence_order_and_agrees_flag (samples : List OffsetSample) :
    ((calculate_offset_from_samples samples).evidence.length
        = (calculate_offset_from_samples samples).samples_processed) ∧
    ((calculate_offset_from_samples samples).samples_processed
        = samples.length) ∧
    ((calculate_offset_from_samples samples).evidence.map
        (fun e => (e.pdf_page, e.detected_label, e.offset))
      = samples.map (fun s => (s.pdf_page, s.detected_label, s.offset))) ∧
    (samples.filter (fun s => s.offset.isSome) = [] →
      (calculate_offset_from_samples samples).evidence.map
          (fun e => e.agrees_with_consensus)
        = samples.map (fun _ => (none : Option Bool))) ∧
    (samples.filter (fun s => s.offset.isSome) ≠ [] →
      ∀ c : Int, (calculate_offset_from_samples samples).offset = some c →
        (calculate_offset_from_samples samples).evidence.map
            (fun e => e.agrees_with_consensus)
          = samples.map (fun s => some (decide (s.offset = some c)))) ∧
    (∀ e ∈ (calculate_offset_from_samples samples).evidence,
      e.offset = none → e.agrees_with_consensus ≠ some true) := by
  by_cases hv : samples.filter (fun s => s.offset.isSome) = []
  · have hev : (calculate_offset_from_samples samples).evidence
        = samples.map (fun s =>
            { pdf_page := s.pdf_page, detected_label := s.detected_label,
              offset := s.offset, agrees_with_consensus := none }) := by
      simp only [calculate_offset_from_samples]
      rw [if_pos hv]
    have hproc : (calculate_offset_from_samples samples).samples_processed
        = samples.length := by
      simp only [calculate_offset_from_samples]
      rw [if_pos hv]
    refine ⟨?_, hproc, ?_, ?_, ?_, ?_⟩
    · rw [hev, hproc, List.length_map]
    · rw [hev, List.map_map]
      rfl
    · intro _
      rw [hev, List.map_map]
      rfl
    · intro hne
      exact absurd hv hne
    · intro e he _
      rw [hev] at he
      obtain ⟨s, -, rfl⟩ := List.mem_map.mp he
      simp
  · have hev : (calculate_offset_from_samples samples).evidence
        = samples.map (fun s =>
            { pdf_page := s.pdf_page, detected_label := s.detected_label,
              offset := s.offset,
              agrees_with_consensus := some (decide (s.offset
                = some (most_common1 (pyCounter ((samples.filter
                    (fun s => s.offset.isSome)).filterMap
                      OffsetSample.offset))).1)) }) := by
      simp only [calculate_offset_from_samples]
      rw [if_neg hv]
    have hproc : (calculate_offset_from_samples samples).samples_processed
        = samples.length := by
      simp only [calculate_offset_from_samples]
      rw [if_neg hv]
    have hoffeq : (calculate_offset_from_samples samples).offset
        = some (most_common1 (pyCounter ((samples.filter
            (fun s => s.offset.isSome)).filterMap OffsetSample.offset))).1 := by
      simp only [calculate_offset_from_samples]
      rw [if_neg hv]
    refine ⟨?_, hproc, ?_, ?_, ?_, ?_⟩
    · rw [hev, hproc, List.length_map]
    · rw [hev, List.map_map]
      rfl
    · intro h0
      exact absurd h0 hv
    · intro _ c hc
      rw [hoffeq] at hc
      have hceq : c = (most_common1 (pyCounter ((samples.filter
          (fun s => s.offset.isSome)).filterMap OffsetSample.offset))).1 :=
        (Option.some.inj hc).symm
      subst hceq
      rw [hev, List.map_map]
      rfl
    · intro e he heoff
      rw [hev] at he
      obtain ⟨s, -, rfl⟩ := List.mem_map.mp he
      simp only at heoff
      simp [heoff]

/-- Witness for C6 at the spec's worked example with consensus offset 3. -/
theorem C6_evidence_order_and_agrees_flag_witness :
    ((calculate_offset_from_samples
        [⟨10, some 8⟩, ⟨20, some 17⟩, ⟨30, some 27⟩]).evidence.length
      = (calculate_offset_from_samples
          [⟨10, some 8⟩, ⟨20, some 17⟩, ⟨30, some 27⟩]).samples_processed) ∧
    ((calculate_offset_from_samples
        [⟨10, some 8⟩, ⟨20, some 17⟩, ⟨30, some 27⟩]).evidence.map
          (fun e => e.agrees_with_consensus)
      = ([⟨10, some 8⟩, ⟨20, some 17⟩, ⟨30, some 27⟩] : List OffsetSample).map
          (fun s => some (decide (s.offset = some 3)))) :=
  ⟨(C6_evidence_order_and_agrees_flag
      [⟨10, some 8⟩, ⟨20, some 17⟩, ⟨30, some 27⟩]).1,
   (C6_evidence_order_and_agrees_flag
      [⟨10, some 8⟩, ⟨20, some 17⟩, ⟨30, some 27⟩]).2.2.2.2.1
     (by decide) 3 (by decide)⟩

/-- **C4, counterexample.** A mapping built from a result with an absent
offset contains no validation record at all (the builder only validates
when an offset is present), contradicting the claim that it contains an
`is_valid = false` record. -/
theorem C4_counterexample_absent_offset_no_validation :
    (create_offset_mapping "ACME" "report.pdf"
        (calculate_offset_from_samples [⟨1, none⟩]) []).offset = none ∧
    (create_offset_mapping "ACME" "report.pdf"
        (calculate_offset_from_samples [⟨1, none⟩]) []).validation = none := by
  exact ⟨rfl, rfl⟩

/-- **C4, amended.** `validate_offset` yields `is_valid = false` with
message `"No offset detected"` on an absent offset, `false` when
`|offset| > 50`, and `true` for negative, zero and positive offsets
within the bound; the built mapping carries the validation record of its
offset exactly when the offset is present (and no record otherwise). -/
theorem C4_validation_rules (o : Int) (r : OffsetResult)
    (company doc : String) (imgs : List String) :
    (validate_offset none 50 = (false, "No offset detected")) ∧
    (|o| > 50 → (validate_offset (some o) 50).1 = false) ∧
    (o < 0 → |o| ≤ 50 → (validate_offset (some o) 50).1 = true) ∧
    ((validate_offset (some 0) 50).1 = true) ∧
    (0 < o → o ≤ 50 → (validate_offset (some o) 50).1 = true) ∧
    ((create_offset_mapping company doc r imgs).validation
      = r.offset.map (fun v => validate_offset (some v) 50)) ∧
    (r.offset = none →
      (create_offset_mapping company doc r imgs).validation = none) := by
  refine ⟨rfl, ?_, ?_, by decide, ?_, rfl, ?_⟩
  · intro h
    simp only [validate_offset]
    rw [if_pos h]
  · intro h1 h2
    simp only [validate_offset]
    rw [if_neg (not_lt.mpr h2), if_pos h1]
  · intro h1 h2
    have habs : ¬ (|o| > 50) := by
      rw [abs_of_pos h1]
      omega
    simp only [validate_offset]
    rw [if_neg habs, if_neg (by omega : ¬ o < 0), if_neg (by omega : ¬ o = 0)]
  · intro h
    show r.offset.map (fun v => validate_offset (some v) 50) = none
    rw [h]
    rfl

/-- Witness for C4 on the spec's examples: offset 75 is invalid,
offsets -3, 0 and 4 are valid. -/
theorem C4_validation_rules_witness :
    (validate_offset (some 75) 50).1 = false ∧
    (validate_offset (some (-3)) 50).1 = true ∧
    (validate_offset (some 4) 50).1 = true :=
  ⟨(C4_validation_rules 75 ⟨none, "NONE", 0, 0, none, none, [], none, [],
      none, none⟩ "c" "d" []).2.1 (by decide),
   (C4_validation_rules (-3) ⟨none, "NONE", 0, 0, none, none, [], none, [],
      none, none⟩ "c" "d" []).2.2.1 (by decide) (by decide),
   (C4_validation_rules 4 ⟨none, "NONE", 0, 0, none, none, [], none, [],
      none, none⟩ "c" "d" []).2.2.2.2.1 (by decide) (by decide)⟩

end AgDash
